import Mathlib

/-!
Verification development for the snarkVM bytecode PRF instruction family
(`src/bytecode/src/function/instructions/prf/mod.rs`).

The instruction itself (operand loading, literal coercion, dispatch on the
opcode tag, destination write, textual and binary codecs) is embedded
directly from the source.  Types and operations that live outside the
provided source file — the circuits crate's `Literal`/`Value` types with
their bit serialization and field projections, the register file, the
opcode string constants from `psd2.rs`/`psd4.rs`/`psd8.rs`, and the
`BinaryOperation` descriptor codec — are modelled from the spec, each
marked `Modelled from the spec:` in its doc comment.  External field,
group, scalar and address arithmetic is abstracted into an environment
structure of opaque functions, which keeps every embedded definition a
faithful transcription of the source's control flow.
-/

namespace PrfVM

/-- Modelled from the spec: the VM literal kind-set (the `Literal` type lives
in the circuits crate, outside the provided source).  `address`, `field`,
`group`, `scalar` are the four field-friendly kinds; `boolean` and `u8`
stand for the remaining kinds of the broader value model ("booleans,
integers").  The payload types `F` (field), `A` (address), `G` (group),
`S` (scalar) are abstract. -/
inductive Literal (F A G S : Type) where
  | address (a : A)
  | field (f : F)
  | group (g : G)
  | scalar (s : S)
  | boolean (b : Bool)
  | u8 (n : Fin 256)
deriving DecidableEq

/-- Modelled from the spec: a register value is either a single literal or a
named composite holding an ordered sequence of literals. -/
inductive Value (F A G S : Type) where
  | literal (l : Literal F A G S)
  | composite (name : String) (literals : List (Literal F A G S))
deriving DecidableEq

/-- Modelled from the spec: an operand reference is a symbolic handle —
a register index or an immediate value — resolved against the register
file at evaluation time. -/
inductive Operand (F A G S : Type) where
  | register (i : Nat)
  | immediate (v : Value F A G S)
deriving DecidableEq

/-- Modelled from the spec: the register file, a partial map from register
indices to values. -/
def Registers (F A G S : Type) : Type := Nat → Option (Value F A G S)

/-- Modelled from the spec: `Registers::load` resolves an operand reference —
an immediate operand yields its value, a register operand reads the
register file (`none` models the fatal halt on an unassigned register). -/
def load {F A G S : Type} (regs : Registers F A G S) :
    Operand F A G S → Option (Value F A G S)
  | Operand.register i => regs i
  | Operand.immediate v => some v

/-- Modelled from the spec: `Registers::assign` stores a literal into the
destination register, leaving every other register untouched. -/
def assign {F A G S : Type} (regs : Registers F A G S) (r : Nat)
    (l : Literal F A G S) : Registers F A G S :=
  fun i => if i = r then some (Value.literal l) else regs i

/-- The environment of external capabilities consumed by `evaluate`:
the three PRF hash functions, the field projections used by the
field-friendly coercion branch, the bit serialization of each literal
payload, the field's `from_bits_le` conversion and its
`size_in_data_bits` constant.  All are opaque, per the spec's boundary
(§6). -/
structure Env (F A G S : Type) where
  prfPsd2 : F → List F → F
  prfPsd4 : F → List F → F
  prfPsd8 : F → List F → F
  addressToGroup : A → G
  groupToX : G → F
  scalarToField : S → F
  fromBitsLE : List Bool → F
  dataBits : Nat
  addressBits : A → List Bool
  fieldBits : F → List Bool
  groupBits : G → List Bool
  scalarBits : S → List Bool

/-- Little-endian bits of an 8-bit integer payload. -/
def u8Bits (n : Fin 256) : List Bool :=
  (List.range 8).map (fun i => Nat.testBit n.val i)

/-- Modelled from the spec: `Literal::to_bits_le` — the little-endian bit
serialization of one literal, delegating to the payload's own
serialization. -/
def litBits {F A G S : Type} (env : Env F A G S) : Literal F A G S → List Bool
  | Literal.address a => env.addressBits a
  | Literal.field f => env.fieldBits f
  | Literal.group g => env.groupBits g
  | Literal.scalar s => env.scalarBits s
  | Literal.boolean b => [b]
  | Literal.u8 n => u8Bits n

/-- Modelled from the spec: `Vec<Literal>::to_bits_le` — the concatenation,
in input order, of each literal's little-endian bit serialization. -/
def seqBitsLE {F A G S : Type} (env : Env F A G S) :
    List (Literal F A G S) → List Bool
  | [] => []
  | l :: ls => litBits env l ++ seqBitsLE env ls

/-- The classification predicate of `to_field_elements` (mod.rs:109-111):
a literal is field-friendly when it is an `Address`, `Field`, `Group` or
`Scalar`. -/
def isFieldFriendly {F A G S : Type} : Literal F A G S → Bool
  | Literal.address _ => true
  | Literal.field _ => true
  | Literal.group _ => true
  | Literal.scalar _ => true
  | _ => false

/-- The per-literal projection of the field-friendly branch of
`to_field_elements` (mod.rs:115-121), including its catch-all halt arm
(modelled as `Except.error`). -/
def projectLiteral {F A G S : Type} (env : Env F A G S) :
    Literal F A G S → Except String F
  | Literal.address a => Except.ok (env.groupToX (env.addressToGroup a))
  | Literal.field f => Except.ok f
  | Literal.group g => Except.ok (env.groupToX g)
  | Literal.scalar s => Except.ok (env.scalarToField s)
  | _ => Except.error "Unreachable literal variant detected during PRF calculation."

/-- The `map`-and-collect of the field-friendly branch (mod.rs:113-122),
with the halt inside the closure aborting the whole map. -/
def mapProject {F A G S : Type} (env : Env F A G S) :
    List (Literal F A G S) → Except String (List F)
  | [] => Except.ok []
  | l :: ls =>
    match projectLiteral env l with
    | Except.error e => Except.error e
    | Except.ok f =>
      match mapProject env ls with
      | Except.error e => Except.error e
      | Except.ok fs => Except.ok (f :: fs)

/-- Rust `slice::chunks`: consecutive chunks of size `n`, in order, the
final chunk possibly shorter; the empty slice yields no chunks.  (Rust
panics when `n = 0`; here that case returns `[]` and every theorem using
chunking assumes `0 < n`.) -/
def chunksLE (n : Nat) (xs : List Bool) : List (List Bool) :=
  if h : xs = [] ∨ n = 0 then []
  else xs.take n :: chunksLE n (xs.drop n)
termination_by xs.length
decreasing_by
  simp only [not_or] at h
  simp only [List.length_drop]
  exact Nat.sub_lt (List.length_pos.mpr h.1) (Nat.pos_of_ne_zero h.2)

/-- The literal-coercion closure `to_field_elements` (mod.rs:107-130):
if every literal is field-friendly, project each one directly; otherwise
serialize the whole sequence to bits, split into chunks of
`size_in_data_bits`, and convert each chunk `from_bits_le`. -/
def to_field_elements {F A G S : Type} (env : Env F A G S)
    (input : List (Literal F A G S)) : Except String (List F) :=
  match input.all isFieldFriendly with
  | true => mapProject env input
  | false =>
      Except.ok ((chunksLE env.dataBits (seqBitsLE env input)).map env.fromBitsLE)

/-- Modelled from the spec: the closed opcode tag registry — one marker per
PRF variant (`psd2.rs`, `psd4.rs`, `psd8.rs`). -/
inductive Tag where
  | psd2
  | psd4
  | psd8
deriving DecidableEq

/-- Modelled from the spec: each tag's distinct canonical opcode mnemonic
string (`Psd2::OPCODE`, `Psd4::OPCODE`, `Psd8::OPCODE`). -/
def opcodeOf : Tag → String
  | Tag.psd2 => "prf.psd2"
  | Tag.psd4 => "prf.psd4"
  | Tag.psd8 => "prf.psd8"

/-- The opcode-string dispatch of `evaluate` (mod.rs:133-138): match the
instruction's opcode string against the three known constants, in order,
and invoke the matching hash capability; any other string is a fatal
halt. -/
def dispatch {F A G S : Type} (env : Env F A G S) (tag : Tag) (seed : F)
    (inputs : List F) : Except String F :=
  if opcodeOf tag = "prf.psd2" then Except.ok (env.prfPsd2 seed inputs)
  else if opcodeOf tag = "prf.psd4" then Except.ok (env.prfPsd4 seed inputs)
  else if opcodeOf tag = "prf.psd8" then Except.ok (env.prfPsd8 seed inputs)
  else Except.error "Invalid option provided for the prf instruction"

/-- The hash capability associated with a tag, used to state dispatch
correctness. -/
def hashFor {F A G S : Type} (env : Env F A G S) : Tag → F → List F → F
  | Tag.psd2 => env.prfPsd2
  | Tag.psd4 => env.prfPsd4
  | Tag.psd8 => env.prfPsd8

/-- Modelled from the spec: the `BinaryOperation` descriptor — seed operand,
input operand, destination register. -/
structure BinaryOp (F A G S : Type) where
  first : Operand F A G S
  second : Operand F A G S
  destination : Nat
deriving DecidableEq

/-- The PRF instruction: a binary-operation descriptor plus the opcode tag
(the source carries the tag as a zero-size type parameter; here it is an
explicit field, fixed at construction). -/
structure PRF (B : Type) where
  tag : Tag
  operation : B
deriving DecidableEq

/-- `PRF::operands` (mod.rs:71-73), delegating to the descriptor. -/
def PRF.operands {F A G S : Type} (instr : PRF (BinaryOp F A G S)) :
    List (Operand F A G S) :=
  [instr.operation.first, instr.operation.second]

/-- `PRF::destination` (mod.rs:76-78), delegating to the descriptor. -/
def PRF.destination {F A G S : Type} (instr : PRF (BinaryOp F A G S)) : Nat :=
  instr.operation.destination

/-- The literal list a loaded input value contributes (mod.rs:91-94): a bare
literal becomes a one-element sequence, a composite contributes its
literal sequence (the name is discarded). -/
def valueLiterals {F A G S : Type} : Value F A G S → List (Literal F A G S)
  | Value.literal l => [l]
  | Value.composite _ ls => ls

/-- Observable events of one evaluation, in the order the source performs
them: the two operand loads, the narrowing of the seed to `Field`, and
the destination write. -/
inductive EvalEvent (F A G S : Type) where
  | loadedSeed (v : Value F A G S)
  | loadedInput (v : Value F A G S)
  | narrowedSeed (f : F)
  | assigned (r : Nat)
deriving DecidableEq

/-- `PRF::evaluate` (mod.rs:84-141) as an effect-explicit transcription:
load the seed operand (halting if it is a composite), load the input
operand, narrow the seed to `Field` (halting on any other kind), coerce
the input literals to field elements, dispatch on the opcode string, and
assign the digest to the destination.  Returns the event trace together
with either the updated register file or the halt message; a halt aborts
evaluation, so the register file is returned only on success. -/
def evaluateTrace {F A G S : Type} (env : Env F A G S)
    (instr : PRF (BinaryOp F A G S)) (regs : Registers F A G S) :
    List (EvalEvent F A G S) × Except String (Registers F A G S) :=
  match load regs instr.operation.first with
  | none => ([], Except.error "Failed to load the first operand")
  | some v1 =>
    match v1 with
    | Value.composite name _ =>
        ([EvalEvent.loadedSeed v1], Except.error (name ++ " is not a literal"))
    | Value.literal lit1 =>
      match load regs instr.operation.second with
      | none =>
          ([EvalEvent.loadedSeed v1],
           Except.error "Failed to load the second operand")
      | some v2 =>
        match lit1 with
        | Literal.field f =>
          match to_field_elements env (valueLiterals v2) with
          | Except.error e =>
              ([EvalEvent.loadedSeed v1, EvalEvent.loadedInput v2,
                EvalEvent.narrowedSeed f], Except.error e)
          | Except.ok fields =>
            match dispatch env instr.tag f fields with
            | Except.error e =>
                ([EvalEvent.loadedSeed v1, EvalEvent.loadedInput v2,
                  EvalEvent.narrowedSeed f], Except.error e)
            | Except.ok digest =>
                ([EvalEvent.loadedSeed v1, EvalEvent.loadedInput v2,
                  EvalEvent.narrowedSeed f,
                  EvalEvent.assigned instr.operation.destination],
                 Except.ok (assign regs instr.operation.destination
                   (Literal.field digest)))
        | _ =>
            ([EvalEvent.loadedSeed v1, EvalEvent.loadedInput v2],
             Except.error
               "Unreachable literal variant detected during PRF calculation.")

/-- `PRF::evaluate`: the register-file outcome of `evaluateTrace`. -/
def evaluate {F A G S : Type} (env : Env F A G S)
    (instr : PRF (BinaryOp F A G S)) (regs : Registers F A G S) :
    Except String (Registers F A G S) :=
  (evaluateTrace env instr regs).2

/-- `PRF::write_le` (mod.rs:165-169): encode by writing the descriptor's own
encoding and nothing else.  The descriptor codec `encodeB` is a
parameter, per the spec's boundary (its layout is owned by the
descriptor). -/
def write_le {B : Type} (encodeB : B → List Nat) (instr : PRF B) : List Nat :=
  encodeB instr.operation

/-- `PRF::read_le` (mod.rs:159-163): decode a descriptor from the stream and
wrap it with the caller-selected tag, propagating a descriptor decode
error with `?`.  `decodeB` returns the decoded descriptor and the rest of
the stream. -/
def read_le {B : Type} (tag : Tag)
    (decodeB : List Nat → Except String (B × List Nat)) (s : List Nat) :
    Except String (PRF B × List Nat) :=
  match decodeB s with
  | Except.ok pr => Except.ok (PRF.mk tag pr.1, pr.2)
  | Except.error e => Except.error e

/-- `PRF::fmt` (mod.rs:144-148): render the descriptor's own textual form
and nothing else. -/
def render {B : Type} (renderB : B → String) (instr : PRF B) : String :=
  renderB instr.operation

/-- `PRF::parse` (mod.rs:150-157): parse a descriptor and attach the tag;
a descriptor parse failure is propagated unchanged.  `parseB` returns the
parsed descriptor and the unconsumed remainder of the text. -/
def parseText {B : Type} (tag : Tag)
    (parseB : String → Except String (B × String)) (s : String) :
    Except String (PRF B × String) :=
  match parseB s with
  | Except.ok pr => Except.ok (PRF.mk tag pr.1, pr.2)
  | Except.error e => Except.error e

/-- The spec's description of PRF binary encoding ("pure pass-through …
adds zero bytes of its own framing"): the bytes are exactly the
descriptor's bytes. -/
def specWriteLe {B : Type} (encodeB : B → List Nat) (instr : PRF B) :
    List Nat :=
  encodeB instr.operation

/-- The spec's description of PRF binary decoding: exactly the descriptor
decoded from the stream, wrapped with the caller's tag, any descriptor
error propagated unchanged. -/
def specReadLe {B : Type} (tag : Tag)
    (decodeB : List Nat → Except String (B × List Nat)) (s : List Nat) :
    Except String (PRF B × List Nat) :=
  Except.map (fun pr => (PRF.mk tag pr.1, pr.2)) (decodeB s)

/-- The spec's "defined field projection" of a literal: defined exactly on
the four field-friendly kinds (Address ↦ x-coordinate of its group
representation, Field ↦ itself, Group ↦ x-coordinate, Scalar ↦ field
embedding), undefined elsewhere. -/
def fieldProjection {F A G S : Type} (env : Env F A G S) :
    Literal F A G S → Option F
  | Literal.address a => some (env.groupToX (env.addressToGroup a))
  | Literal.field f => some f
  | Literal.group g => some (env.groupToX g)
  | Literal.scalar s => some (env.scalarToField s)
  | _ => none

/-- Total companion of `projectLiteral`, agreeing with it on every
field-friendly literal (the value on other kinds is an arbitrary junk
field element, never exercised by the theorems). -/
def projF {F A G S : Type} (env : Env F A G S) : Literal F A G S → F
  | Literal.address a => env.groupToX (env.addressToGroup a)
  | Literal.field f => f
  | Literal.group g => env.groupToX g
  | Literal.scalar s => env.scalarToField s
  | Literal.boolean _ => env.fromBitsLE []
  | Literal.u8 _ => env.fromBitsLE []

/-- Whether a literal is of kind `Field` (the narrowing test of
mod.rs:97-100). -/
def isFieldLit {F A G S : Type} : Literal F A G S → Bool
  | Literal.field _ => true
  | _ => false

/-- The spec's chunk-shape invariant: every chunk before the last has
length exactly `n`, and the final chunk is nonempty and no longer
than `n`. -/
def chunkSizesOk (n : Nat) : List (List Bool) → Bool
  | [] => true
  | [c] => decide (0 < c.length) && decide (c.length ≤ n)
  | c :: rest => decide (c.length = n) && chunkSizesOk n rest

/-- Replaces the two hash capabilities NOT selected by the given tag with
arbitrary other functions, leaving the tag's own capability and every
non-hash capability unchanged.  Used to state that evaluation never
invokes a hash capability other than the tag's. -/
def othersReplaced {F A G S : Type} (env : Env F A G S) :
    Tag → (F → List F → F) → (F → List F → F) → (F → List F → F) →
    Env F A G S
  | Tag.psd2, _, g4, g8 =>
      ⟨env.prfPsd2, g4, g8, env.addressToGroup, env.groupToX,
       env.scalarToField, env.fromBitsLE, env.dataBits, env.addressBits,
       env.fieldBits, env.groupBits, env.scalarBits⟩
  | Tag.psd4, g2, _, g8 =>
      ⟨g2, env.prfPsd4, g8, env.addressToGroup, env.groupToX,
       env.scalarToField, env.fromBitsLE, env.dataBits, env.addressBits,
       env.fieldBits, env.groupBits, env.scalarBits⟩
  | Tag.psd8, g2, g4, _ =>
      ⟨g2, g4, env.prfPsd8, env.addressToGroup, env.groupToX,
       env.scalarToField, env.fromBitsLE, env.dataBits, env.addressBits,
       env.fieldBits, env.groupBits, env.scalarBits⟩

theorem chunksLE_nil (n : Nat) : chunksLE n [] = [] := by
  unfold chunksLE
  simp

theorem chunksLE_cons (n : Nat) (xs : List Bool) (hn : n ≠ 0)
    (hxs : xs ≠ []) :
    chunksLE n xs = xs.take n :: chunksLE n (xs.drop n) := by
  rw [chunksLE]
  simp [hn, hxs]

theorem chunksLE_ne_nil (n : Nat) (xs : List Bool) (hn : n ≠ 0)
    (hxs : xs ≠ []) : chunksLE n xs ≠ [] := by
  rw [chunksLE_cons n xs hn hxs]
  exact List.cons_ne_nil _ _

theorem chunksLE_flatten (n : Nat) (hn : 0 < n) (xs : List Bool) :
    (chunksLE n xs).flatten = xs := by
  by_cases hxs : xs = []
  · subst hxs
    rw [chunksLE_nil]
    rfl
  · rw [chunksLE_cons n xs (Nat.pos_iff_ne_zero.mp hn) hxs,
      List.flatten_cons, chunksLE_flatten n hn (xs.drop n)]
    exact List.take_append_drop n xs
termination_by xs.length
decreasing_by
  simp only [List.length_drop]
  exact Nat.sub_lt (List.length_pos.mpr hxs) hn

theorem chunkSizesOk_chunksLE (n : Nat) (hn : 0 < n) (xs : List Bool)
    (hxs : xs ≠ []) : chunkSizesOk n (chunksLE n xs) = true := by
  have hn0 : n ≠ 0 := Nat.pos_iff_ne_zero.mp hn
  rw [chunksLE_cons n xs hn0 hxs]
  by_cases hdrop : xs.drop n = []
  · rw [hdrop, chunksLE_nil]
    simp [chunkSizesOk]
    exact ⟨hn, List.length_pos.mpr hxs⟩
  · have hlt : n < xs.length := by
      have := List.length_pos.mpr hdrop
      simp only [List.length_drop] at this
      omega
    have htake : (xs.take n).length = n := by
      simp only [List.length_take]
      exact min_eq_left (Nat.le_of_lt hlt)
    have hne := chunksLE_ne_nil n (xs.drop n) hn0 hdrop
    rcases hcs : chunksLE n (xs.drop n) with _ | ⟨c, rest⟩
    · exact absurd hcs hne
    · have hrec := chunkSizesOk_chunksLE n hn (xs.drop n) hdrop
      rw [hcs] at hrec
      simp [chunkSizesOk, htake, hrec]
termination_by xs.length
decreasing_by
  simp only [List.length_drop]
  exact Nat.sub_lt (List.length_pos.mpr hxs) hn

theorem projectLiteral_friendly {F A G S : Type} (env : Env F A G S)
    (l : Literal F A G S) (hf : isFieldFriendly l = true) :
    projectLiteral env l = Except.ok (projF env l) := by
  cases l <;> simp_all [isFieldFriendly, projectLiteral, projF]

theorem mapProject_friendly {F A G S : Type} (env : Env F A G S)
    (input : List (Literal F A G S))
    (h : input.all isFieldFriendly = true) :
    mapProject env input = Except.ok (input.map (projF env)) := by
  induction input with
  | nil => rfl
  | cons x xs ih =>
    rw [List.all_cons, Bool.and_eq_true] at h
    simp [mapProject, projectLiteral_friendly env x h.1, ih h.2]

/-- Concrete environment over `Nat` payloads, used by the witnesses. -/
def cEnv : Env Nat Nat Nat Nat :=
  ⟨fun seed inputs => seed + 2 * inputs.length,
   fun seed inputs => seed + 4 * inputs.length,
   fun seed inputs => seed + 8 * inputs.length,
   fun a => a + 1,
   fun g => 10 * g,
   fun s => s + 7,
   fun bs => bs.length,
   4,
   fun _ => [true],
   fun _ => [false, true],
   fun _ => [true, true, false],
   fun _ => [false]⟩

/-- A concrete all-field-friendly input sequence. -/
def cFriendly : List (Literal Nat Nat Nat Nat) :=
  [Literal.address 3, Literal.field 5, Literal.group 2, Literal.scalar 7]

/-- A concrete input sequence containing non-field-friendly literals. -/
def cMixed : List (Literal Nat Nat Nat Nat) :=
  [Literal.boolean true, Literal.u8 3]

/-- A concrete PRF instruction: seed in register 0, input in register 1,
destination register 2. -/
def cInstr : PRF (BinaryOp Nat Nat Nat Nat) :=
  ⟨Tag.psd2, ⟨Operand.register 0, Operand.register 1, 2⟩⟩

/-- C1: on an input sequence made entirely of Address/Field/Group/Scalar
literals, coercion succeeds, returns one field element per input literal
in order, and the i-th output is the i-th literal's direct field
projection (never a bit-repacked value). -/
theorem prf_c1_friendly_coercion {F A G S : Type} (env : Env F A G S)
    (input : List (Literal F A G S))
    (h : input.all isFieldFriendly = true) :
    to_field_elements env input = Except.ok (input.map (projF env)) ∧
    (input.map (projF env)).length = input.length ∧
    input.map (fieldProjection env) =
      input.map (fun l => some (projF env l)) := by
  refine ⟨?_, by simp, ?_⟩
  · simp [to_field_elements, h, mapProject_friendly env input h]
  · apply List.map_congr_left
    intro l hl
    have hf : isFieldFriendly l = true := by
      rw [List.all_eq_true] at h
      exact h l hl
    cases l <;> simp_all [fieldProjection, projF, isFieldFriendly]

/-- Witness for C1 at a concrete friendly sequence. -/
theorem prf_c1_witness :
    to_field_elements cEnv cFriendly = Except.ok (cFriendly.map (projF cEnv)) ∧
    (cFriendly.map (projF cEnv)).length = cFriendly.length ∧
    cFriendly.map (fieldProjection cEnv) =
      cFriendly.map (fun l => some (projF cEnv l)) :=
  prf_c1_friendly_coercion cEnv cFriendly (by decide)

/-- C2: on an input sequence containing at least one literal outside the
field-friendly set, coercion concatenates all literals' little-endian bit
serializations in order, splits the bitstring into consecutive chunks of
the field's data-bit capacity (every chunk before the last of full size,
the last nonempty and possibly shorter), and the outputs are exactly the
chunk conversions in order. -/
theorem prf_c2_fallback_coercion {F A G S : Type} (env : Env F A G S)
    (input : List (Literal F A G S))
    (h : ∃ l ∈ input, isFieldFriendly l = false) (hd : 0 < env.dataBits) :
    to_field_elements env input =
      Except.ok
        ((chunksLE env.dataBits (seqBitsLE env input)).map env.fromBitsLE) ∧
    (chunksLE env.dataBits (seqBitsLE env input)).flatten =
      seqBitsLE env input ∧
    chunkSizesOk env.dataBits (chunksLE env.dataBits (seqBitsLE env input)) =
      true := by
  have hall : input.all isFieldFriendly = false := by
    rcases h with ⟨l, hl, hfl⟩
    cases hcase : input.all isFieldFriendly
    · rfl
    · rw [List.all_eq_true] at hcase
      rw [hcase l hl] at hfl
      simp at hfl
  refine ⟨?_, chunksLE_flatten _ hd _, ?_⟩
  · simp [to_field_elements, hall]
  · by_cases hb : seqBitsLE env input = []
    · rw [hb, chunksLE_nil]
      rfl
    · exact chunkSizesOk_chunksLE _ hd _ hb

/-- Witness for C2 at a concrete mixed sequence (9 bits, chunked 4/4/1). -/
theorem prf_c2_witness :
    to_field_elements cEnv cMixed =
      Except.ok
        ((chunksLE cEnv.dataBits (seqBitsLE cEnv cMixed)).map cEnv.fromBitsLE) ∧
    (chunksLE cEnv.dataBits (seqBitsLE cEnv cMixed)).flatten =
      seqBitsLE cEnv cMixed ∧
    chunkSizesOk cEnv.dataBits (chunksLE cEnv.dataBits (seqBitsLE cEnv cMixed)) =
      true :=
  prf_c2_fallback_coercion cEnv cMixed (by decide) (by decide)

/-- C9: under the hypothesis that every input literal is field-friendly
(the condition selecting the direct-projection branch), the per-literal
projection never reaches its catch-all halt arm: every projection is
`Except.ok`, and the whole map succeeds. -/
theorem prf_c9_halt_arm_unreachable {F A G S : Type} (env : Env F A G S)
    (input : List (Literal F A G S))
    (h : input.all isFieldFriendly = true) :
    input.map (projectLiteral env) =
      input.map (fun l => Except.ok (projF env l)) ∧
    mapProject env input = Except.ok (input.map (projF env)) := by
  constructor
  · apply List.map_congr_left
    intro l hl
    refine projectLiteral_friendly env l ?_
    rw [List.all_eq_true] at h
    exact h l hl
  · exact mapProject_friendly env input h

/-- Witness for C9 at a concrete friendly sequence. -/
theorem prf_c9_witness :
    cFriendly.map (projectLiteral cEnv) =
      cFriendly.map (fun l => Except.ok (projF cEnv l)) ∧
    mapProject cEnv cFriendly = Except.ok (cFriendly.map (projF cEnv)) :=
  prf_c9_halt_arm_unreachable cEnv cFriendly (by decide)

/-- C5: a seed operand that resolves to a composite value halts evaluation
fatally with a message naming the composite and stating it is not a
literal. -/
theorem prf_c5_composite_seed_halts {F A G S : Type} (env : Env F A G S)
    (instr : PRF (BinaryOp F A G S)) (regs : Registers F A G S)
    (name : String) (ls : List (Literal F A G S))
    (h : load regs instr.operation.first = some (Value.composite name ls)) :
    evaluate env instr regs = Except.error (name ++ " is not a literal") := by
  simp [evaluate, evaluateTrace, h]

/-- Registers whose seed register holds a composite, for the C5 witness. -/
def c5Regs : Registers Nat Nat Nat Nat := fun i =>
  if i = 0 then some (Value.composite "Point" [Literal.field 1]) else none

/-- Witness for C5 at a concrete composite-seeded register file. -/
theorem prf_c5_witness :
    evaluate cEnv cInstr c5Regs = Except.error ("Point" ++ " is not a literal") :=
  prf_c5_composite_seed_halts cEnv cInstr c5Regs "Point" [Literal.field 1] rfl

/-- C10: when the input operand resolves to a composite with an empty
literal sequence, the classification holds vacuously, coercion returns the
empty field-element sequence, and evaluation invokes the tag's hash
capability with the seed and the empty list, writing the digest to the
destination (no halt, no bit-repacking branch). -/
theorem prf_c10_empty_composite {F A G S : Type} (env : Env F A G S)
    (instr : PRF (BinaryOp F A G S)) (regs : Registers F A G S) (s : F)
    (name : String)
    (h1 : load regs instr.operation.first =
      some (Value.literal (Literal.field s)))
    (h2 : load regs instr.operation.second =
      some (Value.composite name [])) :
    (([] : List (Literal F A G S)).all isFieldFriendly) = true ∧
    to_field_elements env ([] : List (Literal F A G S)) = Except.ok [] ∧
    evaluate env instr regs =
      Except.ok (assign regs instr.operation.destination
        (Literal.field (hashFor env instr.tag s []))) := by
  refine ⟨rfl, rfl, ?_⟩
  obtain ⟨tag, op⟩ := instr
  cases tag <;>
    simp [evaluate, evaluateTrace, h1, h2, valueLiterals, to_field_elements,
      mapProject, dispatch, opcodeOf, hashFor]

/-- Registers whose input register holds an empty composite, for the C10
witness. -/
def c10Regs : Registers Nat Nat Nat Nat := fun i =>
  if i = 0 then some (Value.literal (Literal.field 5))
  else if i = 1 then some (Value.composite "Empty" []) else none

/-- Witness for C10 at a concrete empty-composite register file. -/
theorem prf_c10_witness :
    (([] : List (Literal Nat Nat Nat Nat)).all isFieldFriendly) = true ∧
    to_field_elements cEnv ([] : List (Literal Nat Nat Nat Nat)) =
      Except.ok [] ∧
    evaluate cEnv cInstr c10Regs =
      Except.ok (assign c10Regs cInstr.operation.destination
        (Literal.field (hashFor cEnv cInstr.tag 5 []))) :=
  prf_c10_empty_composite cEnv cInstr c10Regs 5 "Empty" rfl rfl

theorem litBits_othersReplaced {F A G S : Type} (env : Env F A G S)
    (tag : Tag) (g2 g4 g8 : F → List F → F) (l : Literal F A G S) :
    litBits (othersReplaced env tag g2 g4 g8) l = litBits env l := by
  cases tag <;> cases l <;> rfl

theorem seqBitsLE_othersReplaced {F A G S : Type} (env : Env F A G S)
    (tag : Tag) (g2 g4 g8 : F → List F → F)
    (input : List (Literal F A G S)) :
    seqBitsLE (othersReplaced env tag g2 g4 g8) input =
      seqBitsLE env input := by
  induction input with
  | nil => rfl
  | cons x xs ih => simp [seqBitsLE, litBits_othersReplaced, ih]

theorem projectLiteral_othersReplaced {F A G S : Type} (env : Env F A G S)
    (tag : Tag) (g2 g4 g8 : F → List F → F) (l : Literal F A G S) :
    projectLiteral (othersReplaced env tag g2 g4 g8) l =
      projectLiteral env l := by
  cases tag <;> cases l <;> rfl

theorem mapProject_othersReplaced {F A G S : Type} (env : Env F A G S)
    (tag : Tag) (g2 g4 g8 : F → List F → F)
    (input : List (Literal F A G S)) :
    mapProject (othersReplaced env tag g2 g4 g8) input =
      mapProject env input := by
  induction input with
  | nil => rfl
  | cons x xs ih => simp [mapProject, projectLiteral_othersReplaced, ih]

theorem to_field_elements_othersReplaced {F A G S : Type} (env : Env F A G S)
    (tag : Tag) (g2 g4 g8 : F → List F → F)
    (input : List (Literal F A G S)) :
    to_field_elements (othersReplaced env tag g2 g4 g8) input =
      to_field_elements env input := by
  have hdb : (othersReplaced env tag g2 g4 g8).dataBits = env.dataBits := by
    cases tag <;> rfl
  have hfb : (othersReplaced env tag g2 g4 g8).fromBitsLE = env.fromBitsLE := by
    cases tag <;> rfl
  cases h : input.all isFieldFriendly with
  | true => simp [to_field_elements, h, mapProject_othersReplaced]
  | false =>
      simp [to_field_elements, h, seqBitsLE_othersReplaced, hdb, hfb]

theorem hashFor_othersReplaced {F A G S : Type} (env : Env F A G S)
    (tag : Tag) (g2 g4 g8 : F → List F → F) :
    hashFor (othersReplaced env tag g2 g4 g8) tag = hashFor env tag := by
  cases tag <;> rfl

/-- C3: evaluation with a Field-literal seed dispatches on the opcode tag to
exactly the correspondingly-tagged hash capability, passing the seed and
the coerced field elements, and writes the returned digest to the
destination as a Field literal; replacing the two hash capabilities not
selected by the tag changes nothing, so no other capability is
invoked. -/
theorem prf_c3_tag_dispatch {F A G S : Type} (env : Env F A G S)
    (instr : PRF (BinaryOp F A G S)) (regs : Registers F A G S) (s : F)
    (v2 : Value F A G S) (fields : List F) (g2 g4 g8 : F → List F → F)
    (h1 : load regs instr.operation.first =
      some (Value.literal (Literal.field s)))
    (h2 : load regs instr.operation.second = some v2)
    (hc : to_field_elements env (valueLiterals v2) = Except.ok fields) :
    evaluate env instr regs =
      Except.ok (assign regs instr.operation.destination
        (Literal.field (hashFor env instr.tag s fields))) ∧
    evaluate (othersReplaced env instr.tag g2 g4 g8) instr regs =
      evaluate env instr regs := by
  obtain ⟨tag, op⟩ := instr
  have hc' : to_field_elements (othersReplaced env tag g2 g4 g8)
      (valueLiterals v2) = Except.ok fields := by
    rw [to_field_elements_othersReplaced]
    exact hc
  have main : ∀ e : Env F A G S,
      to_field_elements e (valueLiterals v2) = Except.ok fields →
      evaluate e (PRF.mk tag op) regs =
        Except.ok (assign regs op.destination
          (Literal.field (hashFor e tag s fields))) := by
    intro e he
    cases tag <;>
      simp [evaluate, evaluateTrace, h1, h2, he, dispatch, opcodeOf, hashFor]
  refine ⟨main env hc, ?_⟩
  rw [main (othersReplaced env tag g2 g4 g8) hc', main env hc,
    hashFor_othersReplaced]

/-- Registers holding a Field seed and a two-element composite input, for
the C3 witness. -/
def c3Regs : Registers Nat Nat Nat Nat := fun i =>
  if i = 0 then some (Value.literal (Literal.field 5))
  else if i = 1 then
    some (Value.composite "Point" [Literal.field 1, Literal.field 2])
  else none

/-- Witness for C3 at a concrete Field-seeded register file. -/
theorem prf_c3_witness :
    evaluate cEnv cInstr c3Regs =
      Except.ok (assign c3Regs cInstr.operation.destination
        (Literal.field (hashFor cEnv cInstr.tag 5 [1, 2]))) ∧
    evaluate
        (othersReplaced cEnv cInstr.tag (fun _ _ => 77) (fun _ _ => 88)
          (fun _ _ => 99)) cInstr c3Regs =
      evaluate cEnv cInstr c3Regs :=
  prf_c3_tag_dispatch cEnv cInstr c3Regs 5
    (Value.composite "Point" [Literal.field 1, Literal.field 2]) [1, 2]
    (fun _ _ => 77) (fun _ _ => 88) (fun _ _ => 99) rfl rfl rfl

/-- C4: the PRF binary codec and text codec round-trip — decoding the
encoded bytes (resp. parsing the rendered text) reproduces the
instruction, with identical descriptor (hence identical operands and
destination) and the same opcode tag — whenever the underlying
descriptor codec round-trips on that instance, which is the shared
grammar the spec takes as given. -/
theorem prf_c4_roundtrip {B : Type} (encodeB : B → List Nat)
    (decodeB : List Nat → Except String (B × List Nat))
    (renderB : B → String) (parseB : String → Except String (B × String))
    (instr : PRF B) (brest : List Nat) (srest : String)
    (hB : decodeB (write_le encodeB instr ++ brest) =
      Except.ok (instr.operation, brest))
    (hP : parseB (render renderB instr ++ srest) =
      Except.ok (instr.operation, srest)) :
    read_le instr.tag decodeB (write_le encodeB instr ++ brest) =
      Except.ok (instr, brest) ∧
    parseText instr.tag parseB (render renderB instr ++ srest) =
      Except.ok (instr, srest) := by
  obtain ⟨tag, op⟩ := instr
  exact ⟨by simp [read_le, hB], by simp [parseText, hP]⟩

/-- A toy descriptor byte encoding for the C4 witness. -/
def c4EncodeB : BinaryOp Nat Nat Nat Nat → List Nat := fun b =>
  [b.destination]

/-- A toy descriptor byte decoding for the C4 witness. -/
def c4DecodeB : List Nat → Except String (BinaryOp Nat Nat Nat Nat × List Nat)
  | [] => Except.error "unexpected end of stream"
  | d :: rest =>
      Except.ok (BinaryOp.mk (Operand.register 0) (Operand.register 1) d, rest)

/-- A toy descriptor renderer for the C4 witness. -/
def c4RenderB : BinaryOp Nat Nat Nat Nat → String := fun _ =>
  "r0 r1 into r2;"

/-- A toy descriptor text parser matching `c4RenderB`, for the C4
witness. -/
def c4ParseB : String → Except String (BinaryOp Nat Nat Nat Nat × String) :=
  fun s =>
    if s = "r0 r1 into r2;" then
      Except.ok (BinaryOp.mk (Operand.register 0) (Operand.register 1) 2, "")
    else Except.error "parse failure"

/-- Witness for C4 at a concrete instruction and toy descriptor codec. -/
theorem prf_c4_witness :
    read_le cInstr.tag c4DecodeB (write_le c4EncodeB cInstr ++ []) =
      Except.ok (cInstr, []) ∧
    parseText cInstr.tag c4ParseB (render c4RenderB cInstr ++ "") =
      Except.ok (cInstr, "") :=
  prf_c4_roundtrip c4EncodeB c4DecodeB c4RenderB c4ParseB cInstr [] ""
    rfl rfl

/-- C8: the PRF binary codec is a pure pass-through to the descriptor codec:
the encoded bytes are byte-for-byte the descriptor's bytes (zero framing,
no opcode discriminant), and decoding is exactly the descriptor decode
wrapped with the caller's tag, propagating any descriptor error
unchanged (`specWriteLe`/`specReadLe` state the spec's wording). -/
theorem prf_c8_passthrough {B : Type} (encodeB : B → List Nat)
    (decodeB : List Nat → Except String (B × List Nat)) (tag : Tag)
    (instr : PRF B) (s : List Nat) :
    write_le encodeB instr = specWriteLe encodeB instr ∧
    read_le tag decodeB s = specReadLe tag decodeB s := by
  refine ⟨rfl, ?_⟩
  rcases h : decodeB s with ⟨e⟩ | ⟨pr⟩ <;>
    simp [read_le, specReadLe, h, Except.map]

/-- C6: evaluation is atomic over the register file: either it halts with
an error, in which case the event trace contains no register write at
all, or it succeeds, in which case the result is exactly the input
register file with one Field literal written to the destination and
every other register unchanged. -/
theorem prf_c6_atomic {F A G S : Type} (env : Env F A G S)
    (instr : PRF (BinaryOp F A G S)) (regs : Registers F A G S) :
    (∃ msg, evaluate env instr regs = Except.error msg ∧
       ∀ r, EvalEvent.assigned r ∉ (evaluateTrace env instr regs).1) ∨
    (∃ digest, evaluate env instr regs =
        Except.ok (assign regs instr.operation.destination
          (Literal.field digest)) ∧
      ∀ i, i ≠ instr.operation.destination →
        assign regs instr.operation.destination (Literal.field digest) i =
          regs i) := by
  obtain ⟨tag, op⟩ := instr
  rcases h1 : load regs op.first with _ | v1
  · exact Or.inl ⟨"Failed to load the first operand",
      by simp [evaluate, evaluateTrace, h1],
      fun r => by simp [evaluateTrace, h1]⟩
  · rcases v1 with lit1 | ⟨name, ls⟩
    · rcases h2 : load regs op.second with _ | v2
      · exact Or.inl ⟨"Failed to load the second operand",
          by simp [evaluate, evaluateTrace, h1, h2],
          fun r => by simp [evaluateTrace, h1, h2]⟩
      · rcases lit1 with a | f | g | sc | b | n
        · exact Or.inl
            ⟨"Unreachable literal variant detected during PRF calculation.",
             by simp [evaluate, evaluateTrace, h1, h2],
             fun r => by simp [evaluateTrace, h1, h2]⟩
        · rcases hc : to_field_elements env (valueLiterals v2) with ⟨e⟩ | ⟨fields⟩
          · exact Or.inl ⟨e, by simp [evaluate, evaluateTrace, h1, h2, hc],
              fun r => by simp [evaluateTrace, h1, h2, hc]⟩
          · rcases hd : dispatch env tag f fields with ⟨e⟩ | ⟨digest⟩
            · exact Or.inl ⟨e,
                by simp [evaluate, evaluateTrace, h1, h2, hc, hd],
                fun r => by simp [evaluateTrace, h1, h2, hc, hd]⟩
            · exact Or.inr ⟨digest,
                by simp [evaluate, evaluateTrace, h1, h2, hc, hd],
                fun i hi => by simp [assign, hi]⟩
        · exact Or.inl
            ⟨"Unreachable literal variant detected during PRF calculation.",
             by simp [evaluate, evaluateTrace, h1, h2],
             fun r => by simp [evaluateTrace, h1, h2]⟩
        · exact Or.inl
            ⟨"Unreachable literal variant detected during PRF calculation.",
             by simp [evaluate, evaluateTrace, h1, h2],
             fun r => by simp [evaluateTrace, h1, h2]⟩
        · exact Or.inl
            ⟨"Unreachable literal variant detected during PRF calculation.",
             by simp [evaluate, evaluateTrace, h1, h2],
             fun r => by simp [evaluateTrace, h1, h2]⟩
        · exact Or.inl
            ⟨"Unreachable literal variant detected during PRF calculation.",
             by simp [evaluate, evaluateTrace, h1, h2],
             fun r => by simp [evaluateTrace, h1, h2]⟩
    · exact Or.inl ⟨name ++ " is not a literal",
        by simp [evaluate, evaluateTrace, h1],
        fun r => by simp [evaluateTrace, h1]⟩

/-- C7 (amended): the input operand is loaded before the seed literal is
narrowed to kind Field, so a bare non-Field seed literal makes evaluation
halt during narrowing after the input has been loaded, with no coercion,
dispatch, or register write. -/
theorem prf_c7_amended {F A G S : Type} (env : Env F A G S)
    (instr : PRF (BinaryOp F A G S)) (regs : Registers F A G S)
    (l : Literal F A G S) (v2 : Value F A G S)
    (h1 : load regs instr.operation.first = some (Value.literal l))
    (hnf : isFieldLit l = false)
    (h2 : load regs instr.operation.second = some v2) :
    evaluateTrace env instr regs =
      ([EvalEvent.loadedSeed (Value.literal l), EvalEvent.loadedInput v2],
       Except.error
         "Unreachable literal variant detected during PRF calculation.") := by
  cases l <;> simp_all [evaluateTrace, isFieldLit]

/-- Registers whose seed register holds a Boolean literal, for C7. -/
def c7Regs : Registers Nat Nat Nat Nat := fun i =>
  if i = 0 then some (Value.literal (Literal.boolean true))
  else if i = 1 then some (Value.literal (Literal.field 3)) else none

/-- Counterexample to C7 as stated: with a Boolean (non-Field) seed literal,
evaluation does halt at the narrowing step, yet the input operand HAS
been loaded — the trace contains the input-load event, refuting "the
input operand is never loaded". -/
theorem prf_c7_counterexample :
    isFieldLit (Literal.boolean true : Literal Nat Nat Nat Nat) = false ∧
    (evaluateTrace cEnv cInstr c7Regs).2 =
      Except.error
        "Unreachable literal variant detected during PRF calculation." ∧
    EvalEvent.loadedInput (Value.literal (Literal.field 3) : Value Nat Nat Nat Nat) ∈
      (evaluateTrace cEnv cInstr c7Regs).1 := by
  refine ⟨rfl, ?_, ?_⟩ <;> simp [evaluateTrace, cEnv, cInstr, c7Regs, load]

/-- Witness for the amended C7 at the same concrete register file. -/
theorem prf_c7_witness :
    evaluateTrace cEnv cInstr c7Regs =
      ([EvalEvent.loadedSeed (Value.literal (Literal.boolean true)),
        EvalEvent.loadedInput (Value.literal (Literal.field 3))],
       Except.error
         "Unreachable literal variant detected during PRF calculation.") :=
  prf_c7_amended cEnv cInstr c7Regs (Literal.boolean true)
    (Value.literal (Literal.field 3)) rfl rfl rfl

end PrfVM
